import Mathlib

/-
Shallow embedding of `main.go` of slightfoot/android-package-puller.

The program shells out to adb, parses `pm list packages -f` output into
Package records, resolves a device and a package (either via a pre-supplied
serial / package name or via an interactive numeric prompt), and pulls the
APK.  Strings are modelled as `List Char` (Go operates on the bytes of
ASCII-delimited lines); stdin reads are modelled as `Option (List Char)`
where `none` is a failed `ReadString` call; fallible functions return
`Except`.
-/

/- Data model: `type Package struct { Name string; Path string }` (main.go
lines 22-27) and adb's `Device` with the two fields the program reads
(`Serial`, `State`). -/

structure Package where
  Name : List Char
  Path : List Char
deriving DecidableEq

structure Device where
  Serial : List Char
  State : List Char
deriving DecidableEq

/- Go `unicode.IsSpace` restricted to the code points it recognises in
Latin-1 (this is what `strings.TrimSpace` strips). -/
def isSpaceChar (c : Char) : Bool :=
  c = ' ' || c = '\t' || c = '\n' || c = '\x0b' || c = '\x0c' || c = '\r' ||
  c.toNat = 0x85 || c.toNat = 0xA0

/- `strings.TrimSpace`: drop leading and trailing whitespace. -/
def trimChars (l : List Char) : List Char :=
  ((l.dropWhile isSpaceChar).reverse.dropWhile isSpaceChar).reverse

/- `strconv.Atoi` helper: fold over the remaining characters, failing on the
first non-digit. -/
def digitsToNat (acc : Nat) : List Char → Option Nat
  | [] => some acc
  | c :: cs => if c.isDigit then digitsToNat (acc * 10 + (c.toNat - 48)) cs else none

/- `strconv.Atoi`: optional sign followed by at least one base-10 digit.
(Machine-int overflow is not modelled; the program only compares the result
against small list bounds.) -/
def atoi : List Char → Option Int
  | [] => none
  | '+' :: cs => if cs = [] then none else (digitsToNat 0 cs).map Int.ofNat
  | '-' :: cs => if cs = [] then none else (digitsToNat 0 cs).map (fun n => -(n : Int))
  | cs => (digitsToNat 0 cs).map Int.ofNat

/- Errors produced by `readInputNumber` (main.go lines 185-206): the three
`printError` sites, in source order. -/
inductive InputError
  | cancelled
  | invalid
  | outOfRange (n : Int)
deriving DecidableEq

/- `readInputNumber(prompt, min, max)` (main.go lines 185-206).  `input` is
the result of `reader.ReadString('\n')`: `none` when that call returned an
error, `some raw` the line read otherwise. -/
def readInputNumber (input : Option (List Char)) (min max : Int) :
    Except InputError Int :=
  match input with
  | none => .error .cancelled
  | some raw =>
    let s := trimChars raw
    if s = [] then .error .cancelled
    else
      match atoi s with
      | none => .error .invalid
      | some n => if n < min ∨ n > max then .error (.outOfRange n) else .ok n

instance {ε α : Type} [DecidableEq ε] [DecidableEq α] : DecidableEq (Except ε α) :=
  fun x y =>
    match x, y with
    | .ok a, .ok b =>
      if h : a = b then .isTrue (by rw [h]) else .isFalse (by simp [h])
    | .ok _, .error _ => .isFalse (by simp)
    | .error _, .ok _ => .isFalse (by simp)
    | .error a, .error b =>
      if h : a = b then .isTrue (by rw [h]) else .isFalse (by simp [h])

/- Result of a selection function, together with whether it printed the
numbered menu and read input (`prompted`) and whether it printed the
"Could not locate device" warning (`warned`). -/
structure SelResult (α : Type) (ε : Type) where
  result : Except ε α
  prompted : Bool
  warned : Bool
deriving DecidableEq

/- `getDevice(devices)` (main.go lines 101-129), with the global
`deviceSerial` passed explicitly.  The serial loop runs only when
`len(deviceSerial) > 0`; on a miss a warning is printed and control falls
through; a single device is auto-selected; otherwise the menu is printed and
the selected index is returned. -/
def getDevice (deviceSerial : List Char) (devices : List Device)
    (input : Option (List Char)) : SelResult Device InputError :=
  match (if deviceSerial = [] then none
         else devices.find? (fun d => d.Serial == deviceSerial)) with
  | some d => ⟨.ok d, false, false⟩
  | none =>
    if devices.length = 1 then
      ⟨.ok (devices.getD 0 ⟨[], []⟩), false, deviceSerial != []⟩
    else
      ⟨(readInputNumber input 0 ((devices.length : Int) - 1)).map
          (fun i => devices.getD i.toNat ⟨[], []⟩),
        true, deviceSerial != []⟩

/- Errors produced by `getPackage`: a forwarded input error, or the fatal
`"Could not locate package: %s"` (main.go line 170). -/
inductive PkgError
  | inputErr (e : InputError)
  | couldNotLocate (name : List Char)
deriving DecidableEq

/- `getPackage(pkgs)` (main.go lines 162-183), with the global `packageName`
passed explicitly.  A pre-supplied name that matches is returned; one that
does not match is fatal; otherwise (name empty) the menu is printed and the
selected index returned — note: no single-candidate shortcut here. -/
def getPackage (packageName : List Char) (pkgs : List Package)
    (input : Option (List Char)) : SelResult Package PkgError :=
  if packageName ≠ [] then
    match pkgs.find? (fun p => p.Name == packageName) with
    | some p => ⟨.ok p, false, false⟩
    | none => ⟨.error (.couldNotLocate packageName), false, false⟩
  else
    ⟨((readInputNumber input 0 ((pkgs.length : Int) - 1)).map
        (fun i => pkgs.getD i.toNat ⟨[], []⟩)).mapError .inputErr,
      true, false⟩

/- `strings.Split(data, "\n")`. -/
def splitNL : List Char → List (List Char)
  | [] => [[]]
  | c :: rest =>
    let r := splitNL rest
    if c = '\n' then [] :: r
    else
      match r with
      | [] => [[c]]
      | l :: ls => (c :: l) :: ls

/- `strings.HasPrefix(line, "package:")` followed by `line[8:]`: strip the
literal marker, or fail. -/
def stripPackageTag : List Char → Option (List Char)
  | 'p' :: 'a' :: 'c' :: 'k' :: 'a' :: 'g' :: 'e' :: ':' :: rest => some rest
  | _ => none

/- Helper for `strings.SplitN(s, "=", 2)`: text before the first separator,
and the remainder after it when one exists. -/
def splitFirstAux (sep : Char) : List Char → List Char × Option (List Char)
  | [] => ([], none)
  | c :: rest =>
    if c = sep then ([], some rest)
    else
      let r := splitFirstAux sep rest
      (c :: r.1, r.2)

/- `strings.SplitN(s, sep, 2)` for a one-character separator. -/
def splitN2 (sep : Char) (cs : List Char) : List (List Char) :=
  match splitFirstAux sep cs with
  | (pre, none) => [pre]
  | (pre, some post) => [pre, post]

/- Outcome of one iteration of the parsing loop in `getPackageList`
(main.go lines 142-153): the line is silently skipped, reported as a
`"Bad package manager response"` warning, or yields a record. -/
inductive LineResult
  | skipped
  | warned (l : List Char)
  | found (p : Package)
deriving DecidableEq

/- One iteration of the loop: trim, require the `package:` marker, split the
remainder on the first `=` into exactly two parts. -/
def parseLine (rawLine : List Char) : LineResult :=
  let line := trimChars rawLine
  match stripPackageTag line with
  | none => .skipped
  | some rest =>
    match splitN2 '=' rest with
    | [path, name] => .found ⟨name, path⟩
    | _ => .warned line

def lineToPkg (l : List Char) : Option Package :=
  match parseLine l with
  | .found p => some p
  | _ => none

def lineToWarning (l : List Char) : Option (List Char) :=
  match parseLine l with
  | .warned w => some w
  | _ => none

/- The records accumulated by the loop over a list of lines. -/
def packagesOfLines (lines : List (List Char)) : List Package :=
  lines.filterMap lineToPkg

/- The warnings printed by the loop over a list of lines. -/
def warningsOfLines (lines : List (List Char)) : List (List Char) :=
  lines.filterMap lineToWarning

/- The single fatal condition of the parsing stage (main.go lines 155-157). -/
inductive ListError
  | noPackagesFound
deriving DecidableEq

/- The parsing stage of `getPackageList(device)` (main.go lines 139-159),
applied to the captured stdout of `pm list packages -f`.  (The command
invocation itself is the external adb collaborator; a command error is a
separate earlier fatal exit.) -/
def getPackageList (data : List Char) : Except ListError (List Package) :=
  let packages := packagesOfLines (splitNL data)
  if packages = [] then .error .noPackagesFound else .ok packages

/- A `device.Pull(pkg.Path, apkName)` invocation recorded as data. -/
structure PullCall where
  src : List Char
  dst : List Char
deriving DecidableEq

inductive MainError
  | deviceErr (e : InputError)
  | listErr (e : ListError)
  | pkgErr (e : PkgError)
deriving DecidableEq

/- The orchestrator `main` (main.go lines 58-99) from the device list
onward: resolve device, parse the package list captured from that device,
resolve package, and record the pull with `apkName := pkg.Name + ".apk"`
(main.go lines 88-91). -/
def mainPull (packageName deviceSerial : List Char) (devices : List Device)
    (deviceInput : Option (List Char)) (pmOutput : List Char)
    (pkgInput : Option (List Char)) : Except MainError PullCall :=
  match (getDevice deviceSerial devices deviceInput).result with
  | .error e => .error (.deviceErr e)
  | .ok _ =>
    match getPackageList pmOutput with
    | .error e => .error (.listErr e)
    | .ok pkgs =>
      match (getPackage packageName pkgs pkgInput).result with
      | .error e => .error (.pkgErr e)
      | .ok pkg => .ok ⟨pkg.Path, pkg.Name ++ ".apk".toList⟩

/- ------------------------------------------------------------------ -/
/- Helper lemmas                                                       -/
/- ------------------------------------------------------------------ -/

theorem splitFirstAux_of_not_mem {sep : Char} {cs : List Char} (h : sep ∉ cs) :
    splitFirstAux sep cs = (cs, none) := by
  induction cs with
  | nil => rfl
  | cons c rest ih =>
    simp only [List.mem_cons, not_or] at h
    simp [splitFirstAux, Ne.symm h.1, ih h.2]

theorem splitFirstAux_append {sep : Char} {pre post : List Char} (h : sep ∉ pre) :
    splitFirstAux sep (pre ++ sep :: post) = (pre, some post) := by
  induction pre with
  | nil => simp [splitFirstAux]
  | cons c rest ih =>
    simp only [List.mem_cons, not_or] at h
    simp [splitFirstAux, Ne.symm h.1, ih h.2]

theorem splitN2_append {sep : Char} {pre post : List Char} (h : sep ∉ pre) :
    splitN2 sep (pre ++ sep :: post) = [pre, post] := by
  simp [splitN2, splitFirstAux_append h]

theorem splitN2_of_not_mem {sep : Char} {cs : List Char} (h : sep ∉ cs) :
    splitN2 sep cs = [cs] := by
  simp [splitN2, splitFirstAux_of_not_mem h]

theorem stripPackageTag_append (r : List Char) :
    stripPackageTag ("package:".toList ++ r) = some r := rfl

theorem getD_mem_of_bounds {α : Type} (l : List α) (d : α) (i : Int)
    (h0 : 0 ≤ i) (h1 : i ≤ (l.length : Int) - 1) : l.getD i.toNat d ∈ l := by
  have hlt : i.toNat < l.length := by omega
  rw [List.getD_eq_getElem?_getD, List.getElem?_eq_getElem hlt, Option.getD_some]
  exact List.getElem_mem hlt

theorem readInputNumber_ok {input : Option (List Char)} {mn mx n : Int}
    (h : readInputNumber input mn mx = .ok n) : mn ≤ n ∧ n ≤ mx := by
  unfold readInputNumber at h
  match input with
  | none => exact absurd h (by simp)
  | some raw =>
    simp only at h
    split at h
    · exact absurd h (by simp)
    · split at h
      · exact absurd h (by simp)
      · split at h
        · exact absurd h (by simp)
        · next hc => injection h with h; omega

/- ------------------------------------------------------------------ -/
/- Claim theorems                                                      -/
/- ------------------------------------------------------------------ -/

/-- C2: every input line that, after per-line whitespace trimming, has the
form `package:<path>=<identifier>` (with `<path>` free of `=`, so that the
split happens at the first `=`) produces exactly one Package record with
`Path` the text between the `package:` marker and the first `=` and `Name`
the text after the first `=`. -/
theorem claim2_wellformed_line (line path name : List Char)
    (h : trimChars line = "package:".toList ++ (path ++ '=' :: name))
    (hp : '=' ∉ path) :
    parseLine line = .found ⟨name, path⟩ ∧
    lineToPkg line = some ⟨name, path⟩ ∧
    packagesOfLines [line] = [⟨name, path⟩] := by
  have h1 : parseLine line = .found ⟨name, path⟩ := by
    simp only [parseLine, h, stripPackageTag_append, splitN2_append hp]
  refine ⟨h1, ?_, ?_⟩
  · simp [lineToPkg, h1]
  · simp [packagesOfLines, lineToPkg, h1]

/-- C2 witness: `package:/a/b.apk=com.example` yields the record
`{Path: "/a/b.apk", Name: "com.example"}`. -/
theorem claim2_witness :
    parseLine "package:/a/b.apk=com.example".toList =
      .found ⟨"com.example".toList, "/a/b.apk".toList⟩ ∧
    lineToPkg "package:/a/b.apk=com.example".toList =
      some ⟨"com.example".toList, "/a/b.apk".toList⟩ ∧
    packagesOfLines ["package:/a/b.apk=com.example".toList] =
      [⟨"com.example".toList, "/a/b.apk".toList⟩] :=
  claim2_wellformed_line "package:/a/b.apk=com.example".toList
    "/a/b.apk".toList "com.example".toList (by decide) (by decide)

/-- C3: `readInputNumber` validates in exactly this order: an unreadable or
(after trimming) empty input is "input cancelled"; otherwise a non-integer
input is "invalid input"; otherwise an integer outside `[min, max]` is
"input out of range"; otherwise the parsed integer is returned. -/
theorem claim3_input_validation (input : Option (List Char)) (mn mx : Int) :
    ((input = none ∨ ∃ raw, input = some raw ∧ trimChars raw = []) →
      readInputNumber input mn mx = .error .cancelled) ∧
    (∀ raw, input = some raw → trimChars raw ≠ [] → atoi (trimChars raw) = none →
      readInputNumber input mn mx = .error .invalid) ∧
    (∀ raw n, input = some raw → trimChars raw ≠ [] → atoi (trimChars raw) = some n →
      (n < mn ∨ n > mx) → readInputNumber input mn mx = .error (.outOfRange n)) ∧
    (∀ raw n, input = some raw → trimChars raw ≠ [] → atoi (trimChars raw) = some n →
      mn ≤ n → n ≤ mx → readInputNumber input mn mx = .ok n) := by
  refine ⟨?_, ?_, ?_, ?_⟩
  · rintro (rfl | ⟨raw, rfl, ht⟩)
    · rfl
    · simp [readInputNumber, ht]
  · rintro raw rfl ht ha
    simp [readInputNumber, ht, ha]
  · rintro raw n rfl ht ha hr
    simp [readInputNumber, ht, ha, hr]
  · rintro raw n rfl ht ha h1 h2
    have : ¬(n < mn ∨ n > mx) := by omega
    simp [readInputNumber, ht, ha, this]

/-- C3 witness: `"2"` in `[0,4]` returns 2; `"7"` is out of range; `"abc"`
is invalid; empty input is cancelled. -/
theorem claim3_witness :
    readInputNumber (some "2".toList) 0 4 = .ok 2 ∧
    readInputNumber (some "7".toList) 0 4 = .error (.outOfRange 7) ∧
    readInputNumber (some "abc".toList) 0 4 = .error .invalid ∧
    readInputNumber (some "".toList) 0 4 = .error .cancelled :=
  ⟨(claim3_input_validation (some "2".toList) 0 4).2.2.2 "2".toList 2 rfl
      (by decide) (by decide) (by decide) (by decide),
   (claim3_input_validation (some "7".toList) 0 4).2.2.1 "7".toList 7 rfl
      (by decide) (by decide) (by decide),
   (claim3_input_validation (some "abc".toList) 0 4).2.1 "abc".toList rfl
      (by decide) (by decide),
   (claim3_input_validation (some "".toList) 0 4).1
      (Or.inr ⟨"".toList, rfl, by decide⟩)⟩

/-- C6: when the command output parses to zero Package records the parsing
stage fails with the "no packages found" error, and that is its only fatal
condition — on any input the stage either fails that way or succeeds with a
non-empty record list (malformed or non-qualifying lines alone never make it
fail). -/
theorem claim6_no_packages (data : List Char) :
    (getPackageList data = .error .noPackagesFound ∨
      ∃ pkgs, getPackageList data = .ok pkgs ∧ pkgs ≠ []) ∧
    (getPackageList data = .error .noPackagesFound ↔
      packagesOfLines (splitNL data) = []) := by
  unfold getPackageList
  by_cases h : packagesOfLines (splitNL data) = [] <;> simp [h]

/-- C6 witness: output with no qualifying line fails with "no packages
found". -/
theorem claim6_witness :
    getPackageList "garbage\nnothing here".toList = .error .noPackagesFound :=
  (claim6_no_packages "garbage\nnothing here".toList).2.mpr (by decide)

/-- C7: a line that (after trimming) carries the `package:` marker but has
no `=` in its remainder is reported as a warning (carrying the trimmed
line), yields no record, and parsing of the surrounding lines continues
unaffected; a line without the marker is skipped silently, with no record
and no warning. -/
theorem claim7_malformed_line (line rest : List Char) :
    (trimChars line = "package:".toList ++ rest → '=' ∉ rest →
      parseLine line = .warned ("package:".toList ++ rest) ∧
      lineToPkg line = none) ∧
    (stripPackageTag (trimChars line) = none →
      parseLine line = .skipped ∧ lineToPkg line = none ∧
      lineToWarning line = none) ∧
    (∀ (pre post : List (List Char)), lineToPkg line = none →
      packagesOfLines (pre ++ line :: post) =
        packagesOfLines pre ++ packagesOfLines post) := by
  refine ⟨?_, ?_, ?_⟩
  · intro h hne
    have h1 : parseLine line = .warned ("package:".toList ++ rest) := by
      simp only [parseLine, h, stripPackageTag_append, splitN2_of_not_mem hne]
    exact ⟨h1, by simp [lineToPkg, h1]⟩
  · intro h
    have h1 : parseLine line = .skipped := by
      simp only [parseLine, h]
    exact ⟨h1, by simp [lineToPkg, h1], by simp [lineToWarning, h1]⟩
  · intro pre post h
    simp [packagesOfLines, List.filterMap_append, List.filterMap_cons, h]

/-- C7 witness: `package:weird` (no `=`) warns with the trimmed line, yields
no record, and does not disturb neighbouring lines; `garbage` is skipped
silently. -/
theorem claim7_witness :
    (parseLine "  package:weird ".toList = .warned "package:weird".toList ∧
      lineToPkg "  package:weird ".toList = none) ∧
    (parseLine "garbage".toList = .skipped ∧
      lineToPkg "garbage".toList = none ∧
      lineToWarning "garbage".toList = none) ∧
    packagesOfLines
        ["package:/a=b".toList, "  package:weird ".toList, "package:/c=d".toList] =
      packagesOfLines ["package:/a=b".toList] ++
        packagesOfLines ["package:/c=d".toList] :=
  ⟨(claim7_malformed_line "  package:weird ".toList "weird".toList).1
      (by decide) (by decide),
   (claim7_malformed_line "garbage".toList []).2.1 (by decide),
   (claim7_malformed_line "  package:weird ".toList "weird".toList).2.2
      ["package:/a=b".toList] ["package:/c=d".toList] (by decide)⟩

/-- C1 counterexample: with a sole package candidate and no pre-supplied
package name, `getPackage` does prompt (it has no single-candidate
shortcut), and on an unreadable input it fails instead of returning the sole
candidate; with a sole candidate and a non-matching pre-supplied name it
fails fatally.  This refutes the claim that package selection returns a sole
candidate without prompting regardless of the pre-supplied match key. -/
theorem claim1_counterexample :
    (getPackage [] [⟨"com.example".toList, "/a/b.apk".toList⟩] none).prompted
        = true ∧
    (getPackage [] [⟨"com.example".toList, "/a/b.apk".toList⟩] none).result
        = .error (.inputErr .cancelled) ∧
    (getPackage "other".toList [⟨"com.example".toList, "/a/b.apk".toList⟩]
        none).result = .error (.couldNotLocate "other".toList) := by
  decide

/-- C1 amended: with exactly one candidate, device selection returns it
without prompting whatever the pre-supplied serial (matched, unmatched or
absent); package selection returns the sole candidate without prompting only
when the pre-supplied name matches it, and with no pre-supplied name it
prompts over the range [0,0] (returning the sole candidate once a valid
index such as "0" is entered). -/
theorem claim1_amended (serial : List Char) (d : Device)
    (input : Option (List Char)) (p : Package) (hp : p.Name ≠ [])
    (input2 : Option (List Char)) :
    ((getDevice serial [d] input).result = .ok d ∧
      (getDevice serial [d] input).prompted = false) ∧
    ((getPackage p.Name [p] input2).result = .ok p ∧
      (getPackage p.Name [p] input2).prompted = false) ∧
    ((getPackage [] [p] (some ['0'])).result = .ok p ∧
      (getPackage [] [p] (some ['0'])).prompted = true) := by
  refine ⟨?_, ?_, ?_⟩
  · by_cases hs : serial = []
    · subst hs
      exact ⟨rfl, rfl⟩
    · by_cases hd : d.Serial = serial
      · simp [getDevice, hs, List.find?, hd]
      · have hb : (d.Serial == serial) = false := by
          simp [hd]
        simp [getDevice, hs, List.find?, hb]
  · have hf : ([p].find? (fun q => q.Name == p.Name)) = some p := by
      simp [List.find?]
    simp [getPackage, hp, hf]
  · exact ⟨rfl, rfl⟩

/-- C1 amended witness at concrete inputs: one device with a non-matching
pre-supplied serial, and one package with its own name pre-supplied. -/
theorem claim1_witness :
    ((getDevice "nope".toList [⟨"abc".toList, "device".toList⟩] none).result
          = .ok ⟨"abc".toList, "device".toList⟩ ∧
      (getDevice "nope".toList [⟨"abc".toList, "device".toList⟩] none).prompted
          = false) ∧
    ((getPackage "com.a".toList
          [⟨"com.a".toList, "/p.apk".toList⟩] none).result
          = .ok ⟨"com.a".toList, "/p.apk".toList⟩ ∧
      (getPackage "com.a".toList
          [⟨"com.a".toList, "/p.apk".toList⟩] none).prompted = false) ∧
    ((getPackage [] [⟨"com.a".toList, "/p.apk".toList⟩]
          (some ['0'])).result = .ok ⟨"com.a".toList, "/p.apk".toList⟩ ∧
      (getPackage [] [⟨"com.a".toList, "/p.apk".toList⟩]
          (some ['0'])).prompted = true) :=
  claim1_amended "nope".toList ⟨"abc".toList, "device".toList⟩ none
    ⟨"com.a".toList, "/p.apk".toList⟩ (by decide) none

/-- C4: with a pre-supplied device serial that no candidate carries,
`getDevice` warns and falls through to normal resolution — it behaves
exactly like a run with no pre-supplied serial except for the warning flag;
with a serial some candidate carries, it returns a matching candidate
immediately, with no prompt and no warning. -/
theorem claim4_device_serial (serial : List Char) (devices : List Device)
    (input : Option (List Char)) (hs : serial ≠ []) :
    ((∀ d ∈ devices, d.Serial ≠ serial) →
      getDevice serial devices input =
        { getDevice [] devices input with warned := true }) ∧
    ((∃ d ∈ devices, d.Serial = serial) →
      ∃ d, d ∈ devices ∧ d.Serial = serial ∧
        getDevice serial devices input = ⟨.ok d, false, false⟩) := by
  constructor
  · intro h
    have hf : devices.find? (fun d => d.Serial == serial) = none := by
      rw [List.find?_eq_none]
      intro x hx
      simp [h x hx]
    have hw : (serial != []) = true := by
      simpa using hs
    simp only [getDevice, if_neg hs, hf, if_pos rfl, hw]
    split <;> rfl
  · intro ⟨d, hd, hds⟩
    have hsome : (devices.find? (fun x => x.Serial == serial)).isSome := by
      rw [List.find?_isSome]
      exact ⟨d, hd, by simp [hds]⟩
    obtain ⟨d2, hd2⟩ := Option.isSome_iff_exists.mp hsome
    refine ⟨d2, List.mem_of_find?_eq_some hd2, ?_, ?_⟩
    · have := List.find?_some hd2
      simpa using this
    · simp only [getDevice, if_neg hs, hd2]

/-- C4 witness: serial `"x"` matches neither of two devices, so selection
equals the no-serial run with the warning flag set (and here falls through
to the prompt, selecting index 1); serial `"y"` matches the first device,
which is returned with no prompt and no warning. -/
theorem claim4_witness :
    (getDevice "x".toList
        [⟨"y".toList, "device".toList⟩, ⟨"z".toList, "device".toList⟩]
        (some "1".toList) =
      { getDevice []
          [⟨"y".toList, "device".toList⟩, ⟨"z".toList, "device".toList⟩]
          (some "1".toList) with warned := true }) ∧
    (∃ d, d ∈ [⟨"y".toList, "device".toList⟩, ⟨"z".toList, "device".toList⟩] ∧
      d.Serial = "y".toList ∧
      getDevice "y".toList
          [⟨"y".toList, "device".toList⟩, ⟨"z".toList, "device".toList⟩]
          (some "1".toList) = ⟨.ok d, false, false⟩) :=
  ⟨(claim4_device_serial "x".toList
      [⟨"y".toList, "device".toList⟩, ⟨"z".toList, "device".toList⟩]
      (some "1".toList) (by decide)).1 (by decide),
   (claim4_device_serial "y".toList
      [⟨"y".toList, "device".toList⟩, ⟨"z".toList, "device".toList⟩]
      (some "1".toList) (by decide)).2
      ⟨⟨"y".toList, "device".toList⟩, by decide, by decide⟩⟩

/-- C5: with a pre-supplied package name that no candidate carries,
`getPackage` fails with the "could not locate package" error without ever
prompting; with a name some candidate carries, it returns a matching
candidate immediately with no prompt. -/
theorem claim5_package_name (pname : List Char) (pkgs : List Package)
    (input : Option (List Char)) (hn : pname ≠ []) :
    ((∀ p ∈ pkgs, p.Name ≠ pname) →
      getPackage pname pkgs input =
        ⟨.error (.couldNotLocate pname), false, false⟩) ∧
    ((∃ p ∈ pkgs, p.Name = pname) →
      ∃ p, p ∈ pkgs ∧ p.Name = pname ∧
        getPackage pname pkgs input = ⟨.ok p, false, false⟩) := by
  constructor
  · intro h
    have hf : pkgs.find? (fun p => p.Name == pname) = none := by
      rw [List.find?_eq_none]
      intro x hx
      simp [h x hx]
    simp only [getPackage, if_pos hn, hf]
  · intro ⟨p, hp, hps⟩
    have hsome : (pkgs.find? (fun x => x.Name == pname)).isSome := by
      rw [List.find?_isSome]
      exact ⟨p, hp, by simp [hps]⟩
    obtain ⟨p2, hp2⟩ := Option.isSome_iff_exists.mp hsome
    refine ⟨p2, List.mem_of_find?_eq_some hp2, ?_, ?_⟩
    · have := List.find?_some hp2
      simpa using this
    · simp only [getPackage, if_pos hn, hp2]

/-- C5 witness: name `"com.b"` matches neither of two packages, so selection
fails fatally without prompting; name `"com.a"` matches the first package,
which is returned with no prompt. -/
theorem claim5_witness :
    (getPackage "com.b".toList
        [⟨"com.a".toList, "/p.apk".toList⟩, ⟨"com.c".toList, "/q.apk".toList⟩]
        (some "0".toList) =
      ⟨.error (.couldNotLocate "com.b".toList), false, false⟩) ∧
    (∃ p, p ∈ [⟨"com.a".toList, "/p.apk".toList⟩,
          ⟨"com.c".toList, "/q.apk".toList⟩] ∧
      p.Name = "com.a".toList ∧
      getPackage "com.a".toList
          [⟨"com.a".toList, "/p.apk".toList⟩, ⟨"com.c".toList, "/q.apk".toList⟩]
          (some "0".toList) = ⟨.ok p, false, false⟩) :=
  ⟨(claim5_package_name "com.b".toList
      [⟨"com.a".toList, "/p.apk".toList⟩, ⟨"com.c".toList, "/q.apk".toList⟩]
      (some "0".toList) (by decide)).1 (by decide),
   (claim5_package_name "com.a".toList
      [⟨"com.a".toList, "/p.apk".toList⟩, ⟨"com.c".toList, "/q.apk".toList⟩]
      (some "0".toList) (by decide)).2
      ⟨⟨"com.a".toList, "/p.apk".toList⟩, by decide, by decide⟩⟩

/-- C8: whenever device, package list and package all resolve, the
orchestrator records a pull whose source is the resolved package's on-device
`Path` and whose destination is the package's `Name` with `".apk"`
appended. -/
theorem claim8_pull_construction (packageName deviceSerial : List Char)
    (devices : List Device) (dIn : Option (List Char)) (pm : List Char)
    (pIn : Option (List Char)) (device : Device) (pkgs : List Package)
    (pkg : Package)
    (hd : (getDevice deviceSerial devices dIn).result = .ok device)
    (hl : getPackageList pm = .ok pkgs)
    (hp : (getPackage packageName pkgs pIn).result = .ok pkg) :
    mainPull packageName deviceSerial devices dIn pm pIn =
      .ok ⟨pkg.Path, pkg.Name ++ ".apk".toList⟩ := by
  simp only [mainPull, hd, hl, hp]

/-- C8 witness, the end-to-end scenario: two devices, the user enters device
index 1, the output has the single line
`package:/data/app/com.foo.apk=com.foo`, the user enters package index 0;
the pull runs from `/data/app/com.foo.apk` to `com.foo.apk`. -/
theorem claim8_witness :
    mainPull [] [] [⟨"A1".toList, "device".toList⟩, ⟨"B2".toList, "device".toList⟩]
        (some "1".toList) "package:/data/app/com.foo.apk=com.foo".toList
        (some "0".toList) =
      .ok ⟨"/data/app/com.foo.apk".toList, "com.foo.apk".toList⟩ :=
  claim8_pull_construction [] []
    [⟨"A1".toList, "device".toList⟩, ⟨"B2".toList, "device".toList⟩]
    (some "1".toList) "package:/data/app/com.foo.apk=com.foo".toList
    (some "0".toList) ⟨"B2".toList, "device".toList⟩
    [⟨"com.foo".toList, "/data/app/com.foo.apk".toList⟩]
    ⟨"com.foo".toList, "/data/app/com.foo.apk".toList⟩
    (by decide) (by decide) (by decide)

/-- C9: selection never escapes the candidate list: an interactive index
accepted by `readInputNumber` lies within `[min, max]`, and any device or
package returned without error — via match key, auto-select or prompt — is a
member of the candidate list. -/
theorem claim9_selection_membership (input : Option (List Char)) :
    (∀ mn mx n : Int, readInputNumber input mn mx = .ok n → mn ≤ n ∧ n ≤ mx) ∧
    (∀ (serial : List Char) (devices : List Device) (d : Device),
      (getDevice serial devices input).result = .ok d → d ∈ devices) ∧
    (∀ (pname : List Char) (pkgs : List Package) (p : Package),
      (getPackage pname pkgs input).result = .ok p → p ∈ pkgs) := by
  refine ⟨fun mn mx n h => readInputNumber_ok h, ?_, ?_⟩
  · intro serial devices d h
    unfold getDevice at h
    split at h
    · next d' heq =>
      simp only at h
      injection h with h
      subst h
      by_cases hs : serial = []
      · rw [if_pos hs] at heq
        exact absurd heq (by simp)
      · rw [if_neg hs] at heq
        exact List.mem_of_find?_eq_some heq
    · split at h
      · next hlen =>
        simp only at h
        injection h with h
        subst h
        have := getD_mem_of_bounds devices ⟨[], []⟩ 0 (by omega) (by omega)
        simpa using this
      · simp only at h
        cases hri : readInputNumber input 0 ((devices.length : Int) - 1) with
        | error e => rw [hri] at h; exact absurd h (by simp [Except.map])
        | ok i =>
          rw [hri] at h
          simp only [Except.map] at h
          injection h with h
          subst h
          obtain ⟨h0, h1⟩ := readInputNumber_ok hri
          exact getD_mem_of_bounds devices ⟨[], []⟩ i h0 h1
  · intro pname pkgs p h
    unfold getPackage at h
    split at h
    · split at h
      · next p' heq =>
        simp only at h
        injection h with h
        subst h
        exact List.mem_of_find?_eq_some heq
      · exact absurd h (by simp)
    · simp only at h
      cases hri : readInputNumber input 0 ((pkgs.length : Int) - 1) with
      | error e => rw [hri] at h; exact absurd h (by simp [Except.map, Except.mapError])
      | ok i =>
        rw [hri] at h
        simp only [Except.map, Except.mapError] at h
        injection h with h
        subst h
        obtain ⟨h0, h1⟩ := readInputNumber_ok hri
        exact getD_mem_of_bounds pkgs ⟨[], []⟩ i h0 h1

/-- C9 witness: prompting with input "1" over two devices returns the second
device, a member of the list, and the accepted index 1 lies within [0,1]. -/
theorem claim9_witness :
    ((0 : Int) ≤ 1 ∧ (1 : Int) ≤ 1) ∧
    (⟨"B2".toList, "device".toList⟩ : Device) ∈
      [⟨"A1".toList, "device".toList⟩, ⟨"B2".toList, "device".toList⟩] :=
  ⟨(claim9_selection_membership (some "1".toList)).1 0 1 1 (by decide),
   (claim9_selection_membership (some "1".toList)).2.1 []
      [⟨"A1".toList, "device".toList⟩, ⟨"B2".toList, "device".toList⟩]
      ⟨"B2".toList, "device".toList⟩ (by decide)⟩

/-- C10: with zero devices (and hence no serial match), `getDevice` issues
the prompt with the unsatisfiable bounds [0, -1]: `readInputNumber` at those
bounds fails on every possible input, and `getDevice` forwards exactly that
error, so device selection can never return a device. -/
theorem claim10_empty_devices (serial : List Char)
    (input : Option (List Char)) :
    (getDevice serial [] input).prompted = true ∧
    ∃ e, readInputNumber input 0 (-1) = .error e ∧
      (getDevice serial [] input).result = .error e := by
  have hall : ∃ e, readInputNumber input 0 (-1) = .error e := by
    unfold readInputNumber
    match input with
    | none => exact ⟨.cancelled, rfl⟩
    | some raw =>
      by_cases ht : trimChars raw = []
      · exact ⟨.cancelled, by simp [ht]⟩
      · cases ha : atoi (trimChars raw) with
        | none => exact ⟨.invalid, by simp [ht, ha]⟩
        | some n =>
          exact ⟨.outOfRange n, by
            simp [ht, ha, show n < 0 ∨ n > -1 by omega]⟩
  obtain ⟨e, he⟩ := hall
  by_cases hs : serial = []
  · refine ⟨by simp [getDevice, hs], e, he, ?_⟩
    simp [getDevice, hs, he, Except.map]
  · refine ⟨by simp [getDevice, hs], e, he, ?_⟩
    simp [getDevice, hs, he, Except.map]
